import Mathlib

/-!
# Verification of the `lssecrets` traversal-and-report logic

Shallow embedding of `src/main.cpp` of the `lssecrets` tool (version 1.1,
the file under `src/`).  The program connects to the freedesktop
secret-service through libsecret, resolves the well-known aliases,
enumerates collections and items, optionally unlocks locked objects and
loads secret values, and renders an indented textual report.

The embedding models the external keyring state (service, collections,
items, secret values, and the outcome of each fallible service call) as
explicit data, and the `App::print` family as pure functions from that
data to the list of produced output lines, the trace of service
operations issued, and an optional fatal (uncaught C++ exception)
outcome.  Output is modelled at line granularity through a structured
`OutLine` type together with a `render` function reproducing the exact
text each line carries in the source.
-/

namespace LsSecrets

/-- ASCII apostrophe character, used inside error-message string literals. -/
def apos : String := String.singleton (Char.ofNat 39)

/-- `SECRET_ERROR_PROTOCOL` from libsecret's `SecretError` enumeration. -/
def SECRET_ERROR_PROTOCOL : Nat := 1

/-- `SECRET_ERROR_IS_LOCKED` from libsecret's `SecretError` enumeration. -/
def SECRET_ERROR_IS_LOCKED : Nat := 2

/-- `SECRET_ERROR_NO_SUCH_OBJECT` from libsecret's `SecretError` enumeration. -/
def SECRET_ERROR_NO_SUCH_OBJECT : Nat := 3

/-- `SECRET_ERROR_ALREADY_EXISTS` from libsecret's `SecretError` enumeration. -/
def SECRET_ERROR_ALREADY_EXISTS : Nat := 4

/-- The `SECRET_ERROR` GError domain (a GQuark at runtime).  The source only
ever compares a domain for equality with this value, so any fixed
representative models it faithfully. -/
def SECRET_ERROR : Nat := 100

/-- A `GError` as observed through `Glib::Error`: its domain quark, its
integer code, and the human-readable description returned by `what()`. -/
structure GErrorData where
  domain : Nat
  code : Nat
  message : String
deriving DecidableEq

/-- `to_error(GError*)` from `src/main.cpp`: classify an error into a
human-readable message.  Errors outside the `SECRET_ERROR` domain get the
generic "Couldn't get secret service." text; in-domain errors are switched
on the code (the `switch` has no `default`, so an unknown in-domain code
leaves `msg` empty); the underlying description is always appended after a
single space. -/
def to_error (err : GErrorData) : String :=
  let msg :=
    if err.domain ≠ SECRET_ERROR then
      "Couldn" ++ apos ++ "t get secret service."
    else if err.code = SECRET_ERROR_PROTOCOL then
      "Received invalid data from secret service."
    else if err.code = SECRET_ERROR_IS_LOCKED then
      "Secret item or collection is locked."
    else if err.code = SECRET_ERROR_NO_SUCH_OBJECT then
      "Secret item or collection not found."
    else if err.code = SECRET_ERROR_ALREADY_EXISTS then
      "Secret item or collection already exists."
    else
      ""
  msg ++ " " ++ err.message

/-- `to_string(gchar*)` / `to_string(const gchar*)` from `src/main.cpp`:
a null pointer becomes an absent optional, a non-null string carries over.
With C strings embedded as `Option String`, this is the identity. -/
def to_string_nullable (s : Option String) : Option String := s

/-- One loop iteration of `to_string(const gchar*, gsize)`:
`out << std::setw(2) << static_cast<unsigned char>(ptr[i])` with fill
character `0`.  Inserting an `unsigned char` into a narrow `std::ostream`
is *character* insertion: `std::setbase(16)` does not apply, and the single
character is only left-padded with the fill character to the field width
of 2. -/
def put_byte (b : Nat) : String :=
  let c := String.singleton (Char.ofNat b)
  if c.length < 2 then "0" ++ c else c

/-- `to_string(const gchar* ptr, gsize len)` from `src/main.cpp`: the
function used to render a non-text secret payload, intended as a hex dump.
The payload is embedded as the list of its byte values. -/
def to_string_buf (bytes : List Nat) : String :=
  bytes.foldl (fun acc b => acc ++ put_byte b) ""

/-- What `to_string(const gchar*, gsize)` was evidently intended to do (the
stream is primed with `std::setbase(16)` and the output is labelled
"(hex)"): a lowercase hexadecimal dump, two digits per byte, no
separators. -/
def hex_dump (bytes : List Nat) : String :=
  bytes.foldl (fun acc b => acc ++ (Nat.toDigits 16 (b % 256)).asString.leftpad 2 '0') ""

/-- `timestamp_to_string(guint64)` from `src/main.cpp` formats a Unix
timestamp through `Glib::DateTime::format("%F %T")`.  The produced text
depends on the local timezone and locale, which lie outside the shallow
embedding; the embedding keeps the function computable by rendering the
raw tick count.  No claim depends on the formatted text, only on whether
and where a timestamp line is emitted. -/
def timestamp_to_string (t : Nat) : String := toString t

/-- Lexicographic comparison of character sequences, the order
`std::less<std::string>` uses (byte order and code-point order agree,
since UTF-8 preserves code-point order). -/
def charListLt : List Char → List Char → Bool
  | _, [] => false
  | [], _ :: _ => true
  | a :: as, b :: bs =>
    if a.toNat < b.toNat then true
    else if b.toNat < a.toNat then false
    else charListLt as bs

/-- The strict order on strings used by `std::map<std::string, ...>`. -/
def strLt (a b : String) : Bool := charListLt a.data b.data

/-- Ordered insertion into a key-sorted association list: the effect of
`result[key_s] = val_s` on a `std::map<std::string, std::string>`
represented as its sorted entry sequence (an existing entry with the same
key is overwritten). -/
def mapInsert (k v : String) : List (String × String) → List (String × String)
  | [] => [(k, v)]
  | (k', v') :: rest =>
    if strLt k k' then (k, v) :: (k', v') :: rest
    else if k = k' then (k, v) :: rest
    else (k', v') :: mapInsert k v rest

/-- `to_map(GHashTable*)` from `src/main.cpp`: iterate the hash table (the
argument list is its entries in iteration order) and store every key/value
pair into a `std::map`, i.e. a key-sorted association list. -/
def to_map (entries : List (String × String)) : List (String × String) :=
  entries.foldl (fun m kv => mapInsert kv.1 kv.2 m) []

/-- The strict key order of map entries. -/
def keyLt (a b : String × String) : Prop := strLt a.1 b.1 = true

/-- The ordering invariant of the association lists produced by `to_map`:
strictly increasing keys. -/
def KeySorted (m : List (String × String)) : Prop :=
  m.Pairwise keyLt

/-- Command-line configuration of the old (v1.1) `App`: the `--secrets`
and `--unlock` boolean options. -/
structure Config where
  show_secrets : Bool
  do_unlock : Bool
deriving DecidableEq

/-- A structured stdout line.  `render` below reproduces the exact text the
source writes for each shape.  `lockStateLine` is the shape a lock-state
report line (`"  Locked: <bool>"`) would have; it is part of the line
vocabulary so that its absence from the produced output can be stated. -/
inductive OutLine where
  | serviceHeader
  | servicePath (p : String)
  | aliasesHeader
  | aliasBindingLine (a p : String)
  | blank
  | collectionHeader (indent lbl : String)
  | pathLine (indent p : String)
  | aliasLine (indent a : String)
  | createdLine (indent ts : String)
  | modifiedLine (indent ts : String)
  | attributesHeader (indent : String)
  | attrLine (indent k v : String)
  | lockStateLine (indent : String) (locked : Bool)
  | errorLine (indent msg : String)
  | itemHeader (indent lbl : String)
  | secretHeader (indent : String)
  | typeLine (indent ct : String)
  | valueTextLine (indent t : String)
  | valueHexLine (indent h : String)
  | secretNullLine (indent : String)
  | fragment (s : String)
deriving DecidableEq

/-- The exact text of each output line, transcribed from the `cout`
statements of `src/main.cpp` (`std::boolalpha` is set, so booleans render
as `true`/`false`).  A `fragment` is an unterminated partial line flushed
before an exception aborts the statement that was producing it. -/
def render : OutLine → String
  | .serviceHeader => "Service"
  | .servicePath p => "  Path: " ++ p
  | .aliasesHeader => "  Aliases:"
  | .aliasBindingLine a p => "    " ++ a ++ ": " ++ p
  | .blank => ""
  | .collectionHeader indent lbl => indent ++ "Collection: \"" ++ lbl ++ "\""
  | .pathLine indent p => indent ++ "  Path: " ++ p
  | .aliasLine indent a => indent ++ "  Alias: " ++ a
  | .createdLine indent ts => indent ++ "  Created: " ++ ts
  | .modifiedLine indent ts => indent ++ "  Modified: " ++ ts
  | .attributesHeader indent => indent ++ "  Attributes:"
  | .attrLine indent k v => indent ++ "    " ++ "  \"" ++ k ++ "\" = \"" ++ v ++ "\""
  | .lockStateLine indent locked => indent ++ "  Locked: " ++ (if locked then "true" else "false")
  | .errorLine indent msg => indent ++ "  Error: " ++ msg
  | .itemHeader indent lbl => indent ++ "Item: \"" ++ lbl ++ "\""
  | .secretHeader indent => indent ++ "  Secret:"
  | .typeLine indent ct => indent ++ "    Type: " ++ ct
  | .valueTextLine indent t => indent ++ "    Value: \"" ++ t ++ "\""
  | .valueHexLine indent h => indent ++ "    Value: \x7b " ++ h ++ " \x7d (hex)"
  | .secretNullLine indent => indent ++ "  Error: secret is null"
  | .fragment s => s

/-- Whether a line is a lock-state report line. -/
def OutLine.isLockState : OutLine → Bool
  | .lockStateLine _ _ => true
  | _ => false

/-- An observable request issued against the secret-service. -/
inductive Op where
  | readAlias (name : String)
  | listCollections
  | listItems (colPath : String)
  | readLocked (path : String)
  | unlockRequest (path : String)
  | loadSecret (path : String)
deriving DecidableEq

/-- An exception escaping `App::print`: either the `std::bad_optional_access`
thrown by `std::optional::value()` on an absent label, or the
`std::runtime_error` built by `throw_error` for the service-connection
failure. -/
inductive Fatal where
  | badOptionalAccess
  | thrownError (msg : String)
deriving DecidableEq

/-- Result of one of the `App::print` functions: the stdout lines written,
the trace of service operations issued, and the exception (if any) that
escaped. -/
structure PrintResult where
  lines : List OutLine
  trace : List Op
  fatal : Option Fatal
deriving DecidableEq

/-- A `SecretValue` as observed by the renderer: its content type, the
result of `secret_value_get_text` (non-null only for text payloads), and
the raw bytes returned by `secret_value_get`. -/
structure SecretValueData where
  contentType : String
  text : Option String
  bytes : List Nat
deriving DecidableEq

/-- A `SecretItem` together with the outcome the service would give to each
request the program can make about it.  `label` is the (nullable) display
label; `created`/`modified` are Unix timestamps, `0` meaning unset (the
source tests them for truthiness); `attributes` is the attribute
`GHashTable` in its iteration order; `locked` is the lock state read by
`secret_item_get_locked`; `unlockError` is the error an unlock request
would report (`none` = success); `loadSecretError` is the error
`secret_item_load_secret_sync` would report; `secret` is the value
`secret_item_get_secret` would then return (`none` = null). -/
structure ItemData where
  label : Option String
  path : String
  created : Nat
  modified : Nat
  attributes : List (String × String)
  locked : Bool
  unlockError : Option GErrorData
  loadSecretError : Option GErrorData
  secret : Option SecretValueData
deriving DecidableEq

/-- A `SecretCollection` with the outcomes of the requests the program can
make about it, and its items in the order `secret_collection_get_items`
returns them. -/
structure CollectionData where
  label : Option String
  path : String
  created : Nat
  modified : Nat
  locked : Bool
  unlockError : Option GErrorData
  items : List ItemData
deriving DecidableEq

/-- The secret-service as observed by the program: its object path, the
alias bindings (`secret_service_read_alias_dbus_path_sync` per alias name;
`none` = no binding), and its collections. -/
structure ServiceData where
  path : String
  aliasBinding : String → Option String
  collections : List CollectionData

/-- The whole external world of one run: either the initial
`secret_service_get_sync` fails with an error, or it yields a service. -/
structure WorldData where
  serviceError : Option GErrorData
  service : ServiceData

/-- The `Value:` line of a secret: a quoted string when
`secret_value_get_text` yields text, otherwise the `to_string` dump of the
raw bytes labelled "(hex)". -/
def secretValueLine (indent : String) (v : SecretValueData) : OutLine :=
  match v.text with
  | some t => .valueTextLine indent t
  | none => .valueHexLine indent (to_string_buf v.bytes)

/-- The part of `App::print(SecretItem)` after the lock handling: gated on
`show_secrets`, load the secret synchronously, report a load failure
inline, and otherwise render the value (content type, then quoted text or
the `to_string` byte dump labelled "(hex)"), or flag a null secret. -/
def printItemSecretPart (cfg : Config) (indent : String) (it : ItemData) :
    List OutLine × List Op :=
  if cfg.show_secrets then
    match it.loadSecretError with
    | some e => ([.errorLine indent (to_error e)], [Op.loadSecret it.path])
    | none =>
      match it.secret with
      | some v =>
        ([.secretHeader indent, .typeLine indent v.contentType, secretValueLine indent v],
         [Op.loadSecret it.path])
      | none => ([.secretNullLine indent], [Op.loadSecret it.path])
  else ([], [])

/-- The metadata block of an item's output: header, path, optional
timestamps, and the sorted attribute listing (all of it written before the
lock handling in the source). -/
def itemBaseLines (indent : String) (it : ItemData) (lbl : String) : List OutLine :=
  [.itemHeader indent lbl, .pathLine indent it.path]
    ++ (if it.created ≠ 0 then [.createdLine indent (timestamp_to_string it.created)] else [])
    ++ (if it.modified ≠ 0 then [.modifiedLine indent (timestamp_to_string it.modified)] else [])
    ++ (if to_map it.attributes ≠ [] then
          .attributesHeader indent ::
            (to_map it.attributes).map (fun kv => .attrLine indent kv.1 kv.2)
        else [])

/-- `App::print(GObjectWrapper<SecretItem>&, const std::string&)` from
`src/main.cpp`.  Field order: label (via `.value()`, which throws on an
absent label, leaving the flushed fragment), path, created, modified,
attributes (fetched unconditionally, rendered sorted when non-empty), then
the lock handling (read the lock state once; if locked and `--unlock` was
passed, issue one unlock request and on failure print the error inline and
return), then the secret part. -/
def printItem (cfg : Config) (indent : String) (it : ItemData) : PrintResult :=
  match to_string_nullable it.label with
  | none =>
    { lines := [.fragment (indent ++ "Item: \"")]
      trace := []
      fatal := some .badOptionalAccess }
  | some lbl =>
    if it.locked && cfg.do_unlock then
      match it.unlockError with
      | some e =>
        { lines := itemBaseLines indent it lbl ++ [.errorLine indent (to_error e)]
          trace := [.readLocked it.path, .unlockRequest it.path]
          fatal := none }
      | none =>
        { lines := itemBaseLines indent it lbl ++ (printItemSecretPart cfg indent it).1
          trace := [.readLocked it.path, .unlockRequest it.path]
            ++ (printItemSecretPart cfg indent it).2
          fatal := none }
    else
      { lines := itemBaseLines indent it lbl ++ (printItemSecretPart cfg indent it).1
        trace := [.readLocked it.path] ++ (printItemSecretPart cfg indent it).2
        fatal := none }

/-- The item loop of `App::print(SecretCollection)`: print each item
followed by a blank line; an exception escaping an item's print aborts the
loop (and skips that item's trailing blank line). -/
def printItems (cfg : Config) (indent : String) : List ItemData → PrintResult
  | [] => { lines := [], trace := [], fatal := none }
  | it :: rest =>
    let r := printItem cfg indent it
    match r.fatal with
    | some f => { lines := r.lines, trace := r.trace, fatal := some f }
    | none =>
      let r2 := printItems cfg indent rest
      { lines := r.lines ++ [.blank] ++ r2.lines
        trace := r.trace ++ r2.trace
        fatal := r2.fatal }

/-- The metadata block of a collection's output: header, path, the
`Alias:` lines (an ordered `equal_range` on the reverse multimap, embedded
as a filter of the insertion-ordered binding list), and the optional
timestamps. -/
def collectionBaseLines (reverseAliases : List (String × String))
    (indent : String) (c : CollectionData) (lbl : String) : List OutLine :=
  [.collectionHeader indent lbl, .pathLine indent c.path]
    ++ (reverseAliases.filter (fun pa => pa.1 = c.path)).map
         (fun pa => .aliasLine indent pa.2)
    ++ (if c.created ≠ 0 then [.createdLine indent (timestamp_to_string c.created)] else [])
    ++ (if c.modified ≠ 0 then [.modifiedLine indent (timestamp_to_string c.modified)] else [])

/-- The lock handling of `App::print(SecretCollection)`: read the lock
state once; if locked and `--unlock` was passed, issue one unlock request,
reporting a failure inline (without aborting the collection). -/
def collectionLockPart (cfg : Config) (indent : String) (c : CollectionData) :
    List OutLine × List Op :=
  if c.locked && cfg.do_unlock then
    match c.unlockError with
    | some e => ([.errorLine indent (to_error e)],
                 [.readLocked c.path, .unlockRequest c.path])
    | none => ([], [.readLocked c.path, .unlockRequest c.path])
  else ([], [.readLocked c.path])

/-- `App::print(GObjectWrapper<SecretCollection>&, ...)` from
`src/main.cpp`.  Field order: label (`.value()`, throwing on absence),
path, one `Alias:` line per reverse-alias entry for this path (an ordered
`equal_range` on the multimap, embedded as a filter of the
insertion-ordered binding list), created, modified, then the lock
handling (read the lock state once; if locked and `--unlock` was passed,
issue one unlock request and report a failure inline — without returning),
a blank line, then the item loop. -/
def printCollection (cfg : Config) (reverseAliases : List (String × String))
    (indent : String) (c : CollectionData) : PrintResult :=
  match to_string_nullable c.label with
  | none =>
    { lines := [.fragment (indent ++ "Collection: \"")]
      trace := []
      fatal := some .badOptionalAccess }
  | some lbl =>
    { lines := collectionBaseLines reverseAliases indent c lbl
        ++ (collectionLockPart cfg indent c).1 ++ [.blank]
        ++ (printItems cfg (indent ++ "    ") c.items).lines
      trace := (collectionLockPart cfg indent c).2 ++ [.listItems c.path]
        ++ (printItems cfg (indent ++ "    ") c.items).trace
      fatal := (printItems cfg (indent ++ "    ") c.items).fatal }

/-- The collection loop of `App::print()`: print each collection followed
by a blank line; an exception escaping a collection's print aborts the
loop. -/
def printCollections (cfg : Config) (reverseAliases : List (String × String))
    (indent : String) : List CollectionData → PrintResult
  | [] => { lines := [], trace := [], fatal := none }
  | c :: rest =>
    let r := printCollection cfg reverseAliases indent c
    match r.fatal with
    | some f => { lines := r.lines, trace := r.trace, fatal := some f }
    | none =>
      let r2 := printCollections cfg reverseAliases indent rest
      { lines := r.lines ++ [.blank] ++ r2.lines
        trace := r.trace ++ r2.trace
        fatal := r2.fatal }

/-- The fixed list of well-known alias names checked by `App::print()`. -/
def known_aliases : List String := ["default", "login", "session"]

/-- The alias-resolution loop of `App::print()`: for each name, read the
bound collection path; an absent binding is silently skipped.  Returns the
forward map (`std::map<std::string, std::string>` keyed by alias name —
the names are probed in their already-sorted order, so the insertion-order
list coincides with the map's iteration order) and the reverse multimap as
its insertion-ordered binding list. -/
def buildAliases (env : String → Option String) :
    List String → List (String × String) × List (String × String)
  | [] => ([], [])
  | a :: rest =>
    let r := buildAliases env rest
    match env a with
    | some p => ((a, p) :: r.1, (p, a) :: r.2)
    | none => r

/-- The service-block lines of `App::print()`: the `Service` header, the
service path, the alias listing (when any alias is bound), and the blank
line separating the service block from the collections. -/
def serviceLines (w : WorldData) : List OutLine :=
  [.serviceHeader, .servicePath w.service.path]
    ++ (if (buildAliases w.service.aliasBinding known_aliases).1 ≠ [] then
          .aliasesHeader ::
            (buildAliases w.service.aliasBinding known_aliases).1.map
              (fun ap => .aliasBindingLine ap.1 ap.2)
        else [])
    ++ [.blank]

/-- `App::print()` from `src/main.cpp`: obtain the service handle (a
failure is thrown via `throw_error` before anything is printed), print the
service block, resolve the aliases (both maps are built before any
collection is rendered), then run the collection loop. -/
def appPrint (cfg : Config) (w : WorldData) : PrintResult :=
  match w.serviceError with
  | some e => { lines := [], trace := [], fatal := some (.thrownError (to_error e)) }
  | none =>
    { lines := serviceLines w
        ++ (printCollections cfg (buildAliases w.service.aliasBinding known_aliases).2
              "    " w.service.collections).lines
      trace := known_aliases.map Op.readAlias ++ [Op.listCollections]
        ++ (printCollections cfg (buildAliases w.service.aliasBinding known_aliases).2
              "    " w.service.collections).trace
      fatal := (printCollections cfg (buildAliases w.service.aliasBinding known_aliases).2
          "    " w.service.collections).fatal }

/-- The `what()` text of a fatal exception as caught in `App::on_activate`
(`std::bad_optional_access::what()` is "bad optional access" in
libstdc++). -/
def fatalWhat : Fatal → String
  | .badOptionalAccess => "bad optional access"
  | .thrownError msg => msg

/-- The run as observed from outside (`App::on_activate`): the stdout
lines produced, the stderr lines (an uncaught exception is printed there
prefixed `Error: `, and the run stops), and the trace of service
operations issued. -/
structure RunResult where
  stdout : List OutLine
  stderr : List String
  trace : List Op
deriving DecidableEq

/-- `App::on_activate` from `src/main.cpp`: run `print()`; any escaping
exception is caught, written to standard error prefixed `Error: `, and the
application quits without producing further report content. -/
def runApp (cfg : Config) (w : WorldData) : RunResult :=
  let r := appPrint cfg w
  match r.fatal with
  | none => { stdout := r.lines, stderr := [], trace := r.trace }
  | some f => { stdout := r.lines, stderr := ["Error: " ++ fatalWhat f], trace := r.trace }

instance : DecidableRel keyLt :=
  fun a b => decidable_of_iff (strLt a.1 b.1 = true) Iff.rfl

/-! ## Concrete sample data (used by witnesses and counterexamples) -/

/-- Both options passed: `lssecrets --secrets --unlock`. -/
def cfgBoth : Config := ⟨true, true⟩

/-- Only `--unlock` passed: secrets are not requested. -/
def cfgUnlockOnly : Config := ⟨false, true⟩

/-- An in-domain "is locked" error. -/
def errIsLocked : GErrorData := ⟨SECRET_ERROR, SECRET_ERROR_IS_LOCKED, "is locked"⟩

/-- An in-domain protocol error. -/
def errProto : GErrorData := ⟨SECRET_ERROR, SECRET_ERROR_PROTOCOL, "bad reply"⟩

/-- An in-domain "no such object" error. -/
def errGone : GErrorData := ⟨SECRET_ERROR, SECRET_ERROR_NO_SUCH_OBJECT, "vanished"⟩

/-- An in-domain "already exists" error. -/
def errDup : GErrorData := ⟨SECRET_ERROR, SECRET_ERROR_ALREADY_EXISTS, "duplicate"⟩

/-- An error from a foreign domain (e.g. a raw D-Bus failure). -/
def errForeign : GErrorData := ⟨7, 1, "dbus timeout"⟩

/-- An unlocked item holding the binary secret `0xDE 0xAD`. -/
def itemHexSecret : ItemData :=
  ⟨some "Test", "/item/hex", 0, 0, [("app", "demo")], false, none, none,
   some ⟨"application/octet-stream", none, [222, 173]⟩⟩

/-- A locked item whose unlock request fails. -/
def itemUnlockFail : ItemData :=
  ⟨some "A", "/item/uf", 0, 0, [], true, some errIsLocked, none, none⟩

/-- An unlocked item whose secret load fails. -/
def itemLoadFail : ItemData :=
  ⟨some "B", "/item/lf", 0, 0, [], false, none, some errProto, none⟩

/-- A plain unlocked item with a text secret. -/
def itemPlain : ItemData :=
  ⟨some "C", "/item/ok", 0, 0, [], false, none, none,
   some ⟨"text/plain", some "hunter2", []⟩⟩

/-- A locked item whose unlock request succeeds. -/
def itemLockedOk : ItemData :=
  ⟨some "D", "/item/lk", 0, 0, [], true, none, none,
   some ⟨"text/plain", some "pw", []⟩⟩

/-- An item whose display label is absent (null from the service). -/
def itemNoLabel : ItemData :=
  ⟨none, "/item/nl", 0, 0, [], false, none, none, none⟩

/-- A locked collection whose unlock request fails. -/
def colUnlockFail : CollectionData :=
  ⟨some "Login", "/col/uf", 0, 0, true, some errIsLocked, [itemPlain]⟩

/-- A locked collection whose unlock request succeeds. -/
def colLockedOk : CollectionData :=
  ⟨some "Login2", "/col/lk", 0, 0, true, none, [itemPlain]⟩

/-- A collection whose display label is absent. -/
def colNoLabel : CollectionData :=
  ⟨none, "/col/nl", 0, 0, false, none, []⟩

/-- A plain unlocked collection. -/
def colPlain : CollectionData :=
  ⟨some "Main", "/col/ok", 0, 0, false, none, [itemPlain]⟩

/-- A sample alias environment binding only "default". -/
def envX : String → Option String :=
  fun a => if a = "default" then some "/col/ok" else none

/-- A healthy world: service up, one plain collection. -/
def worldX : WorldData :=
  ⟨none, ⟨"/org/freedesktop/secrets", envX, [colPlain]⟩⟩

/-- A world where the initial service connection fails. -/
def worldErr : WorldData :=
  ⟨some errForeign, ⟨"/org/freedesktop/secrets", envX, [colPlain]⟩⟩

/-- A world whose only collection has no label. -/
def worldNoLabel : WorldData :=
  ⟨none, ⟨"/svc", envX, [colNoLabel]⟩⟩

/-! ## Order facts about the map comparison -/

theorem char_toNat_inj {a b : Char} (h : a.toNat = b.toNat) : a = b :=
  Char.eq_of_val_eq (UInt32.ext h)

theorem charListLt_irrefl : ∀ l : List Char, charListLt l l = false
  | [] => rfl
  | a :: as => by
    simp [charListLt, charListLt_irrefl as]

theorem charListLt_trans : ∀ a b c : List Char,
    charListLt a b = true → charListLt b c = true → charListLt a c = true := by
  intro a
  induction a with
  | nil =>
    intro b c hab hbc
    cases b with
    | nil => simp [charListLt] at hab
    | cons y ys =>
      cases c with
      | nil => simp [charListLt] at hbc
      | cons z zs => simp [charListLt]
  | cons x xs ih =>
    intro b c hab hbc
    cases b with
    | nil => simp [charListLt] at hab
    | cons y ys =>
      cases c with
      | nil => simp [charListLt] at hbc
      | cons z zs =>
        simp only [charListLt] at hab hbc ⊢
        by_cases h1 : x.toNat < y.toNat
        · by_cases h2 : y.toNat < z.toNat
          · simp [Nat.lt_trans h1 h2]
          · by_cases h3 : z.toNat < y.toNat
            · simp [h2, h3] at hbc
            · have hyz : y.toNat = z.toNat :=
                Nat.le_antisymm (Nat.not_lt.mp h3) (Nat.not_lt.mp h2)
              simp [hyz ▸ h1]
        · by_cases h1' : y.toNat < x.toNat
          · simp [h1, h1'] at hab
          · have hxy : x.toNat = y.toNat :=
              Nat.le_antisymm (Nat.not_lt.mp h1') (Nat.not_lt.mp h1)
            simp only [h1, if_false, h1', if_true, ite_self] at hab
            by_cases h2 : y.toNat < z.toNat
            · simp [hxy ▸ h2]
            · by_cases h3 : z.toNat < y.toNat
              · simp [h2, h3] at hbc
              · have hyz : y.toNat = z.toNat :=
                  Nat.le_antisymm (Nat.not_lt.mp h3) (Nat.not_lt.mp h2)
                simp only [h2, if_false, h3, ite_self] at hbc
                have hxz : ¬ x.toNat < z.toNat := by
                  rw [hxy, hyz]; exact Nat.lt_irrefl _
                have hzx : ¬ z.toNat < x.toNat := by
                  rw [hxy, hyz]; exact Nat.lt_irrefl _
                simp [hxz, hzx, ih ys zs hab hbc]

theorem charListLt_connex : ∀ a b : List Char,
    charListLt a b = false → a ≠ b → charListLt b a = true := by
  intro a
  induction a with
  | nil =>
    intro b hab hne
    cases b with
    | nil => exact absurd rfl hne
    | cons y ys => simp [charListLt] at hab
  | cons x xs ih =>
    intro b hab hne
    cases b with
    | nil => simp [charListLt]
    | cons y ys =>
      simp only [charListLt] at hab ⊢
      by_cases h1 : x.toNat < y.toNat
      · simp [h1] at hab
      · by_cases h2 : y.toNat < x.toNat
        · simp [h2]
        · have hxy : x = y :=
            char_toNat_inj (Nat.le_antisymm (Nat.not_lt.mp h2) (Nat.not_lt.mp h1))
          subst hxy
          simp only [h1, if_false, h2, ite_self] at hab
          have hne' : xs ≠ ys := fun h => hne (by rw [h])
          simp [Nat.lt_irrefl, ih ys hab hne']

theorem strLt_irrefl (a : String) : strLt a a = false :=
  charListLt_irrefl a.data

theorem strLt_trans {a b c : String} (hab : strLt a b = true)
    (hbc : strLt b c = true) : strLt a c = true :=
  charListLt_trans a.data b.data c.data hab hbc

theorem strLt_connex {a b : String} (hab : strLt a b = false) (hne : a ≠ b) :
    strLt b a = true :=
  charListLt_connex a.data b.data hab
    (fun h => hne (congrArg String.mk h))

theorem strLt_ne {a b : String} (h : strLt a b = true) : a ≠ b := by
  intro he
  rw [he, strLt_irrefl] at h
  exact Bool.false_ne_true h

theorem strLt_asymm {a b : String} (h : strLt a b = true) :
    strLt b a = false := by
  cases hba : strLt b a with
  | false => rfl
  | true => exact absurd (strLt_trans h hba) (by simp [strLt_irrefl])

/-! ## Facts about `to_map` -/

theorem mem_mapInsert_strong (k v : String) :
    ∀ (m : List (String × String)) (x : String × String),
      x ∈ mapInsert k v m → x = (k, v) ∨ x ∈ m := by
  intro m
  induction m with
  | nil =>
    intro x hx
    rw [mapInsert] at hx
    exact Or.inl (List.mem_singleton.mp hx)
  | cons hd tl ih =>
    intro x hx
    rw [mapInsert] at hx
    by_cases h1 : strLt k hd.1 = true
    · rw [if_pos h1] at hx
      rcases List.mem_cons.mp hx with h | h
      · exact Or.inl h
      · exact Or.inr h
    · rw [if_neg h1] at hx
      by_cases h2 : k = hd.1
      · rw [if_pos h2] at hx
        rcases List.mem_cons.mp hx with h | h
        · exact Or.inl h
        · exact Or.inr (List.mem_cons_of_mem _ h)
      · rw [if_neg h2] at hx
        rcases List.mem_cons.mp hx with h | h
        · exact Or.inr (h ▸ List.mem_cons_self _ _)
        · rcases ih x h with h' | h'
          · exact Or.inl h'
          · exact Or.inr (List.mem_cons_of_mem _ h')

theorem keySorted_mapInsert (k v : String) :
    ∀ m : List (String × String), KeySorted m → KeySorted (mapInsert k v m) := by
  intro m
  induction m with
  | nil =>
    intro _
    simp [mapInsert, KeySorted]
  | cons hd tl ih =>
    intro hm
    rw [KeySorted, List.pairwise_cons] at hm
    obtain ⟨hhd, htl⟩ := hm
    show KeySorted (mapInsert k v (hd :: tl))
    rw [mapInsert]
    by_cases h1 : strLt k hd.1 = true
    · rw [if_pos h1]
      refine List.pairwise_cons.mpr ⟨?_, List.pairwise_cons.mpr ⟨hhd, htl⟩⟩
      intro x hx
      rcases List.mem_cons.mp hx with h | h
      · rw [h]; exact h1
      · exact strLt_trans h1 (hhd x h)
    · rw [if_neg h1]
      by_cases h2 : k = hd.1
      · rw [if_pos h2]
        refine List.pairwise_cons.mpr ⟨?_, htl⟩
        intro x hx
        rw [h2]
        exact hhd x hx
      · rw [if_neg h2]
        refine List.pairwise_cons.mpr ⟨?_, ih htl⟩
        intro x hx
        rcases mem_mapInsert_strong k v tl x hx with h | h
        · rw [h]
          exact strLt_connex (Bool.not_eq_true _ ▸ h1 : strLt k hd.1 = false) h2
        · exact hhd x h

theorem mem_mapInsert (k v : String) :
    ∀ m : List (String × String), KeySorted m → ∀ x,
      (x ∈ mapInsert k v m ↔ x = (k, v) ∨ (x ∈ m ∧ x.1 ≠ k)) := by
  intro m
  induction m with
  | nil =>
    intro _ x
    rw [mapInsert]
    simp
  | cons hd tl ih =>
    intro hm x
    rw [KeySorted, List.pairwise_cons] at hm
    obtain ⟨hhd, htl⟩ := hm
    rw [mapInsert]
    by_cases h1 : strLt k hd.1 = true
    · rw [if_pos h1]
      constructor
      · intro hx
        rcases List.mem_cons.mp hx with h | h
        · exact Or.inl h
        · refine Or.inr ⟨h, ?_⟩
          rcases List.mem_cons.mp h with h' | h'
          · rw [h']
            exact fun he => strLt_ne h1 he.symm
          · have hx1 : strLt k x.1 = true := strLt_trans h1 (hhd x h')
            exact fun he => strLt_ne hx1 he.symm
      · rintro (h | ⟨h, _⟩)
        · exact h ▸ List.mem_cons_self _ _
        · exact List.mem_cons_of_mem _ h
    · rw [if_neg h1]
      by_cases h2 : k = hd.1
      · rw [if_pos h2]
        constructor
        · intro hx
          rcases List.mem_cons.mp hx with h | h
          · exact Or.inl h
          · refine Or.inr ⟨List.mem_cons_of_mem _ h, ?_⟩
            intro he
            exact strLt_ne (hhd x h) (by rw [he, h2])
        · rintro (h | ⟨h, hne⟩)
          · exact h ▸ List.mem_cons_self _ _
          · rcases List.mem_cons.mp h with h' | h'
            · exact absurd (by rw [h', ← h2] : x.1 = k) hne
            · exact List.mem_cons_of_mem _ h'
      · rw [if_neg h2]
        constructor
        · intro hx
          rcases List.mem_cons.mp hx with h | h
          · refine Or.inr ⟨h ▸ List.mem_cons_self _ _, ?_⟩
            rw [h]
            exact fun he => h2 he.symm
          · rcases (ih htl x).mp h with h' | ⟨h', hne⟩
            · exact Or.inl h'
            · exact Or.inr ⟨List.mem_cons_of_mem _ h', hne⟩
        · rintro (h | ⟨h, hne⟩)
          · exact List.mem_cons_of_mem _ ((ih htl x).mpr (Or.inl h))
          · rcases List.mem_cons.mp h with h' | h'
            · exact h' ▸ List.mem_cons_self _ _
            · exact List.mem_cons_of_mem _ ((ih htl x).mpr (Or.inr ⟨h', hne⟩))

theorem to_map_keySorted_aux :
    ∀ entries m : List (String × String), KeySorted m →
      KeySorted (entries.foldl (fun m kv => mapInsert kv.1 kv.2 m) m) := by
  intro entries
  induction entries with
  | nil => intro m hm; exact hm
  | cons e es ih =>
    intro m hm
    rw [List.foldl_cons]
    exact ih _ (keySorted_mapInsert e.1 e.2 m hm)

theorem to_map_keySorted (entries : List (String × String)) :
    KeySorted (to_map entries) :=
  to_map_keySorted_aux entries [] List.Pairwise.nil

theorem mem_to_map_aux :
    ∀ entries m : List (String × String), KeySorted m →
      (entries.map Prod.fst).Nodup → ∀ x,
      (x ∈ entries.foldl (fun m kv => mapInsert kv.1 kv.2 m) m ↔
        x ∈ entries ∨ (x ∈ m ∧ x.1 ∉ entries.map Prod.fst)) := by
  intro entries
  induction entries with
  | nil =>
    intro m _ _ x
    simp
  | cons e es ih =>
    intro m hm hnd x
    rw [List.map_cons, List.nodup_cons] at hnd
    obtain ⟨he, hnd'⟩ := hnd
    rw [List.foldl_cons,
        ih (mapInsert e.1 e.2 m) (keySorted_mapInsert _ _ _ hm) hnd' x,
        mem_mapInsert _ _ m hm x]
    constructor
    · rintro (h | ⟨h | ⟨h, hne⟩, hnotin⟩)
      · exact Or.inl (List.mem_cons_of_mem _ h)
      · exact Or.inl (h ▸ List.mem_cons_self _ _)
      · refine Or.inr ⟨h, ?_⟩
        rw [List.map_cons, List.mem_cons]
        rintro (h' | h')
        · exact hne h'
        · exact hnotin h'
    · rintro (h | ⟨h, hnotin⟩)
      · rcases List.mem_cons.mp h with h' | h'
        · refine Or.inr ⟨Or.inl h', ?_⟩
          rw [h']
          exact he
        · exact Or.inl h'
      · rw [List.map_cons, List.mem_cons] at hnotin
        push_neg at hnotin
        exact Or.inr ⟨Or.inr ⟨h, hnotin.1⟩, hnotin.2⟩

theorem mem_to_map (entries : List (String × String))
    (hnd : (entries.map Prod.fst).Nodup) (x : String × String) :
    x ∈ to_map entries ↔ x ∈ entries := by
  rw [to_map, mem_to_map_aux entries [] List.Pairwise.nil hnd x]
  simp

theorem to_map_nodup (entries : List (String × String)) :
    (to_map entries).Nodup :=
  List.Pairwise.imp
    (fun h he => strLt_ne h (congrArg Prod.fst he)) (to_map_keySorted entries)

theorem to_map_perm_invariant {l1 l2 : List (String × String)}
    (hp : l1.Perm l2) (hnd : (l1.map Prod.fst).Nodup) :
    to_map l1 = to_map l2 := by
  have hnd2 : (l2.map Prod.fst).Nodup := (hp.map Prod.fst).nodup_iff.mp hnd
  have hmem : ∀ x, x ∈ to_map l1 ↔ x ∈ to_map l2 := by
    intro x
    rw [mem_to_map l1 hnd x, mem_to_map l2 hnd2 x]
    exact hp.mem_iff
  have hperm : (to_map l1).Perm (to_map l2) :=
    (List.perm_ext_iff_of_nodup (to_map_nodup l1) (to_map_nodup l2)).mpr hmem
  haveI : IsAntisymm (String × String) keyLt :=
    ⟨fun a b h1 h2 => absurd h2 (by rw [keyLt, strLt_asymm h1]; simp)⟩
  exact List.eq_of_perm_of_sorted hperm (to_map_keySorted l1) (to_map_keySorted l2)

/-! ## Shape lemmas for the item printer -/

theorem printItemSecretPart_off (cfg : Config) (ind : String) (it : ItemData)
    (h : cfg.show_secrets = false) : printItemSecretPart cfg ind it = ([], []) := by
  simp [printItemSecretPart, h]

theorem printItemSecretPart_load_fail (cfg : Config) (ind : String)
    (it : ItemData) (e : GErrorData) (hs : cfg.show_secrets = true)
    (he : it.loadSecretError = some e) :
    printItemSecretPart cfg ind it =
      ([.errorLine ind (to_error e)], [.loadSecret it.path]) := by
  simp [printItemSecretPart, hs, he]

theorem printItemSecretPart_ops (cfg : Config) (ind : String) (it : ItemData) :
    ∀ op ∈ (printItemSecretPart cfg ind it).2, op = Op.loadSecret it.path := by
  unfold printItemSecretPart
  split
  · split
    · simp
    · split <;> simp
  · simp

theorem secretValueLine_not_lockState (ind : String) (v : SecretValueData) :
    (secretValueLine ind v).isLockState = false := by
  unfold secretValueLine
  split <;> rfl

theorem printItemSecretPart_no_lockState (cfg : Config) (ind : String)
    (it : ItemData) :
    ∀ l ∈ (printItemSecretPart cfg ind it).1, l.isLockState = false := by
  unfold printItemSecretPart
  split
  · split
    · simp [OutLine.isLockState]
    · split
      · intro l hl
        rcases List.mem_cons.mp hl with h | h
        · subst h; rfl
        · rcases List.mem_cons.mp h with h' | h'
          · subst h'; rfl
          · rw [List.mem_singleton.mp h']
            exact secretValueLine_not_lockState ind _
      · simp [OutLine.isLockState]
  · simp

theorem itemBaseLines_no_lockState (ind : String) (it : ItemData) (lbl : String) :
    ∀ l ∈ itemBaseLines ind it lbl, l.isLockState = false := by
  intro l hl
  unfold itemBaseLines at hl
  rcases List.mem_append.mp hl with h | h
  · rcases List.mem_append.mp h with h' | h'
    · rcases List.mem_append.mp h' with h'' | h''
      · rcases List.mem_cons.mp h'' with h3 | h3
        · subst h3; rfl
        · rw [List.mem_singleton.mp h3]; rfl
      · split at h''
        · rw [List.mem_singleton.mp h'']; rfl
        · exact absurd h'' (List.not_mem_nil l)
    · split at h'
      · rw [List.mem_singleton.mp h']; rfl
      · exact absurd h' (List.not_mem_nil l)
  · split at h
    · rcases List.mem_cons.mp h with h' | h'
      · subst h'; rfl
      · rcases List.mem_map.mp h' with ⟨kv, _, hkv⟩
        rw [← hkv]; rfl
    · exact absurd h (List.not_mem_nil l)

theorem printItem_label_none (cfg : Config) (ind : String) (it : ItemData)
    (h : it.label = none) :
    printItem cfg ind it =
      ⟨[.fragment (ind ++ "Item: \"")], [], some .badOptionalAccess⟩ := by
  simp [printItem, to_string_nullable, h]

theorem printItem_unlock_fail (cfg : Config) (ind : String) (it : ItemData)
    (lbl : String) (e : GErrorData) (h : it.label = some lbl)
    (hl : it.locked = true) (hd : cfg.do_unlock = true)
    (he : it.unlockError = some e) :
    printItem cfg ind it =
      ⟨itemBaseLines ind it lbl ++ [.errorLine ind (to_error e)],
       [.readLocked it.path, .unlockRequest it.path], none⟩ := by
  simp [printItem, to_string_nullable, h, hl, hd, he]

theorem printItem_unlock_ok (cfg : Config) (ind : String) (it : ItemData)
    (lbl : String) (h : it.label = some lbl) (hl : it.locked = true)
    (hd : cfg.do_unlock = true) (he : it.unlockError = none) :
    printItem cfg ind it =
      ⟨itemBaseLines ind it lbl ++ (printItemSecretPart cfg ind it).1,
       [.readLocked it.path, .unlockRequest it.path]
         ++ (printItemSecretPart cfg ind it).2, none⟩ := by
  simp [printItem, to_string_nullable, h, hl, hd, he]

theorem printItem_no_unlock (cfg : Config) (ind : String) (it : ItemData)
    (lbl : String) (h : it.label = some lbl)
    (hc : (it.locked && cfg.do_unlock) = false) :
    printItem cfg ind it =
      ⟨itemBaseLines ind it lbl ++ (printItemSecretPart cfg ind it).1,
       [.readLocked it.path] ++ (printItemSecretPart cfg ind it).2, none⟩ := by
  simp [printItem, to_string_nullable, h, hc]

theorem printItem_fatal_none (cfg : Config) (ind : String) (it : ItemData)
    (lbl : String) (h : it.label = some lbl) :
    (printItem cfg ind it).fatal = none := by
  simp only [printItem, to_string_nullable, h]
  split
  · split <;> rfl
  · rfl

theorem printItem_no_lockState (cfg : Config) (ind : String) (it : ItemData) :
    ∀ l ∈ (printItem cfg ind it).lines, l.isLockState = false := by
  rcases hlab : it.label with _ | lbl
  · rw [printItem_label_none cfg ind it hlab]
    intro l hl
    rw [List.mem_singleton.mp hl]
    rfl
  · simp only [printItem, to_string_nullable, hlab]
    split
    · split
      · intro l hl
        rcases List.mem_append.mp hl with h | h
        · exact itemBaseLines_no_lockState _ _ _ l h
        · rw [List.mem_singleton.mp h]; rfl
      · intro l hl
        rcases List.mem_append.mp hl with h | h
        · exact itemBaseLines_no_lockState _ _ _ l h
        · exact printItemSecretPart_no_lockState _ _ _ l h
    · intro l hl
      rcases List.mem_append.mp hl with h | h
      · exact itemBaseLines_no_lockState _ _ _ l h
      · exact printItemSecretPart_no_lockState _ _ _ l h

theorem printItem_trace_paths (cfg : Config) (ind : String) (it : ItemData)
    (op : Op) (hop : op ∈ (printItem cfg ind it).trace) :
    op = .readLocked it.path ∨ op = .unlockRequest it.path
      ∨ op = .loadSecret it.path := by
  rcases hlab : it.label with _ | lbl
  · rw [printItem_label_none cfg ind it hlab] at hop
    exact absurd hop (List.not_mem_nil op)
  · simp only [printItem, to_string_nullable, hlab] at hop
    split at hop
    · split at hop
      · rcases List.mem_cons.mp hop with h | h
        · exact Or.inl h
        · exact Or.inr (Or.inl (List.mem_singleton.mp h))
      · rcases List.mem_append.mp hop with h | h
        · rcases List.mem_cons.mp h with h' | h'
          · exact Or.inl h'
          · exact Or.inr (Or.inl (List.mem_singleton.mp h'))
        · exact Or.inr (Or.inr (printItemSecretPart_ops cfg ind it op h))
    · rcases List.mem_append.mp hop with h | h
      · exact Or.inl (List.mem_singleton.mp h)
      · exact Or.inr (Or.inr (printItemSecretPart_ops cfg ind it op h))

theorem unlockRequest_mem_printItem (cfg : Config) (ind : String)
    (it : ItemData) (lbl : String) (p : String) (h : it.label = some lbl) :
    (Op.unlockRequest p ∈ (printItem cfg ind it).trace ↔
      p = it.path ∧ it.locked = true ∧ cfg.do_unlock = true) := by
  simp only [printItem, to_string_nullable, h]
  by_cases hcond : (it.locked && cfg.do_unlock) = true
  · rw [if_pos hcond]
    rw [Bool.and_eq_true] at hcond
    obtain ⟨hl, hd⟩ := hcond
    rcases hue : it.unlockError with _ | e
    · simp only
      constructor
      · intro hmem
        rcases List.mem_append.mp hmem with hm | hm
        · rcases List.mem_cons.mp hm with h' | h'
          · cases h'
          · refine ⟨?_, hl, hd⟩
            cases List.mem_singleton.mp h'
            rfl
        · cases printItemSecretPart_ops cfg ind it _ hm
      · rintro ⟨hp, _, _⟩
        subst hp
        exact List.mem_append_left _
          (List.mem_cons_of_mem _ (List.mem_singleton.mpr rfl))
    · simp only
      constructor
      · intro hmem
        rcases List.mem_cons.mp hmem with h' | h'
        · cases h'
        · refine ⟨?_, hl, hd⟩
          cases List.mem_singleton.mp h'
          rfl
      · rintro ⟨hp, _, _⟩
        subst hp
        exact List.mem_cons_of_mem _ (List.mem_singleton.mpr rfl)
  · rw [if_neg hcond]
    constructor
    · intro hmem
      rcases List.mem_append.mp hmem with hm | hm
      · cases List.mem_singleton.mp hm
      · cases printItemSecretPart_ops cfg ind it _ hm
    · rintro ⟨_, hl, hd⟩
      exact absurd (by simp [hl, hd]) hcond

/-! ## Shape lemmas for the item loop -/

theorem printItems_nil (cfg : Config) (ind : String) :
    printItems cfg ind [] = ⟨[], [], none⟩ := rfl

theorem printItems_cons_of_fatal_none (cfg : Config) (ind : String)
    (it : ItemData) (rest : List ItemData)
    (h : (printItem cfg ind it).fatal = none) :
    printItems cfg ind (it :: rest) =
      ⟨(printItem cfg ind it).lines ++ [.blank] ++ (printItems cfg ind rest).lines,
       (printItem cfg ind it).trace ++ (printItems cfg ind rest).trace,
       (printItems cfg ind rest).fatal⟩ := by
  simp [printItems, h]

theorem printItems_fatal_none (cfg : Config) (ind : String) :
    ∀ its : List ItemData, (∀ x ∈ its, x.label ≠ none) →
      (printItems cfg ind its).fatal = none := by
  intro its
  induction its with
  | nil => intro _; rfl
  | cons it rest ih =>
    intro h
    have hit : (printItem cfg ind it).fatal = none := by
      rcases hlab : it.label with _ | lbl
      · exact absurd hlab (h it (List.mem_cons_self _ _))
      · exact printItem_fatal_none cfg ind it lbl hlab
    rw [printItems_cons_of_fatal_none cfg ind it rest hit]
    exact ih (fun x hx => h x (List.mem_cons_of_mem _ hx))

theorem printItems_trace_mem (cfg : Config) (ind : String) :
    ∀ (its : List ItemData) (op : Op),
      op ∈ (printItems cfg ind its).trace →
        ∃ x ∈ its, op ∈ (printItem cfg ind x).trace := by
  intro its
  induction its with
  | nil =>
    intro op hop
    exact absurd hop (List.not_mem_nil op)
  | cons it rest ih =>
    intro op hop
    rcases hf : (printItem cfg ind it).fatal with _ | f
    · rw [printItems_cons_of_fatal_none cfg ind it rest hf] at hop
      rcases List.mem_append.mp hop with hm | hm
      · exact ⟨it, List.mem_cons_self _ _, hm⟩
      · obtain ⟨x, hx, hxo⟩ := ih op hm
        exact ⟨x, List.mem_cons_of_mem _ hx, hxo⟩
    · have : printItems cfg ind (it :: rest) =
          ⟨(printItem cfg ind it).lines, (printItem cfg ind it).trace, some f⟩ := by
        simp [printItems, hf]
      rw [this] at hop
      exact ⟨it, List.mem_cons_self _ _, hop⟩

theorem printItems_no_lockState (cfg : Config) (ind : String) :
    ∀ its : List ItemData, ∀ l ∈ (printItems cfg ind its).lines,
      l.isLockState = false := by
  intro its
  induction its with
  | nil =>
    intro l hl
    exact absurd hl (List.not_mem_nil l)
  | cons it rest ih =>
    intro l hl
    rcases hf : (printItem cfg ind it).fatal with _ | f
    · rw [printItems_cons_of_fatal_none cfg ind it rest hf] at hl
      rcases List.mem_append.mp hl with hm | hm
      · rcases List.mem_append.mp hm with hm' | hm'
        · exact printItem_no_lockState cfg ind it l hm'
        · rw [List.mem_singleton.mp hm']; rfl
      · exact ih l hm
    · have : printItems cfg ind (it :: rest) =
          ⟨(printItem cfg ind it).lines, (printItem cfg ind it).trace, some f⟩ := by
        simp [printItems, hf]
      rw [this] at hl
      exact printItem_no_lockState cfg ind it l hl

/-! ## Shape lemmas for the collection printer -/

theorem collectionBaseLines_no_lockState (rev : List (String × String))
    (ind : String) (c : CollectionData) (lbl : String) :
    ∀ l ∈ collectionBaseLines rev ind c lbl, l.isLockState = false := by
  intro l hl
  unfold collectionBaseLines at hl
  rcases List.mem_append.mp hl with h | h
  · rcases List.mem_append.mp h with h' | h'
    · rcases List.mem_append.mp h' with h'' | h''
      · rcases List.mem_cons.mp h'' with h3 | h3
        · subst h3; rfl
        · rw [List.mem_singleton.mp h3]; rfl
      · rcases List.mem_map.mp h'' with ⟨pa, _, hpa⟩
        rw [← hpa]; rfl
    · split at h'
      · rw [List.mem_singleton.mp h']; rfl
      · exact absurd h' (List.not_mem_nil l)
  · split at h
    · rw [List.mem_singleton.mp h]; rfl
    · exact absurd h (List.not_mem_nil l)

theorem collectionLockPart_ops (cfg : Config) (ind : String) (c : CollectionData) :
    ∀ op ∈ (collectionLockPart cfg ind c).2,
      op = Op.readLocked c.path ∨ op = Op.unlockRequest c.path := by
  unfold collectionLockPart
  split
  · split <;> simp
  · simp

theorem collectionLockPart_no_lockState (cfg : Config) (ind : String)
    (c : CollectionData) :
    ∀ l ∈ (collectionLockPart cfg ind c).1, l.isLockState = false := by
  unfold collectionLockPart
  split
  · split <;> simp [OutLine.isLockState]
  · simp

theorem collectionLockPart_unlock_fail (cfg : Config) (ind : String)
    (c : CollectionData) (e : GErrorData) (hl : c.locked = true)
    (hd : cfg.do_unlock = true) (he : c.unlockError = some e) :
    collectionLockPart cfg ind c =
      ([.errorLine ind (to_error e)],
       [.readLocked c.path, .unlockRequest c.path]) := by
  simp [collectionLockPart, hl, hd, he]

theorem unlockRequest_mem_collectionLockPart (cfg : Config) (ind : String)
    (c : CollectionData) (p : String) :
    (Op.unlockRequest p ∈ (collectionLockPart cfg ind c).2 ↔
      p = c.path ∧ c.locked = true ∧ cfg.do_unlock = true) := by
  unfold collectionLockPart
  by_cases hcond : (c.locked && cfg.do_unlock) = true
  · rw [if_pos hcond]
    rw [Bool.and_eq_true] at hcond
    obtain ⟨hl, hd⟩ := hcond
    rcases hue : c.unlockError with _ | e
    · simp only
      constructor
      · intro hmem
        rcases List.mem_cons.mp hmem with h' | h'
        · cases h'
        · refine ⟨?_, hl, hd⟩
          cases List.mem_singleton.mp h'
          rfl
      · rintro ⟨hp, _, _⟩
        subst hp
        exact List.mem_cons_of_mem _ (List.mem_singleton.mpr rfl)
    · simp only
      constructor
      · intro hmem
        rcases List.mem_cons.mp hmem with h' | h'
        · cases h'
        · refine ⟨?_, hl, hd⟩
          cases List.mem_singleton.mp h'
          rfl
      · rintro ⟨hp, _, _⟩
        subst hp
        exact List.mem_cons_of_mem _ (List.mem_singleton.mpr rfl)
  · rw [if_neg hcond]
    constructor
    · intro hmem
      cases List.mem_singleton.mp hmem
    · rintro ⟨_, hl, hd⟩
      exact absurd (by simp [hl, hd]) hcond

theorem printCollection_label_none (cfg : Config) (rev : List (String × String))
    (ind : String) (c : CollectionData) (h : c.label = none) :
    printCollection cfg rev ind c =
      ⟨[.fragment (ind ++ "Collection: \"")], [], some .badOptionalAccess⟩ := by
  simp [printCollection, to_string_nullable, h]

theorem printCollection_some (cfg : Config) (rev : List (String × String))
    (ind : String) (c : CollectionData) (lbl : String) (h : c.label = some lbl) :
    printCollection cfg rev ind c =
      ⟨collectionBaseLines rev ind c lbl ++ (collectionLockPart cfg ind c).1
         ++ [.blank] ++ (printItems cfg (ind ++ "    ") c.items).lines,
       (collectionLockPart cfg ind c).2 ++ [.listItems c.path]
         ++ (printItems cfg (ind ++ "    ") c.items).trace,
       (printItems cfg (ind ++ "    ") c.items).fatal⟩ := by
  simp [printCollection, to_string_nullable, h]

theorem printCollection_no_lockState (cfg : Config)
    (rev : List (String × String)) (ind : String) (c : CollectionData) :
    ∀ l ∈ (printCollection cfg rev ind c).lines, l.isLockState = false := by
  rcases hlab : c.label with _ | lbl
  · rw [printCollection_label_none cfg rev ind c hlab]
    intro l hl
    rw [List.mem_singleton.mp hl]
    rfl
  · rw [printCollection_some cfg rev ind c lbl hlab]
    intro l hl
    rcases List.mem_append.mp hl with h | h
    · rcases List.mem_append.mp h with h' | h'
      · rcases List.mem_append.mp h' with h'' | h''
        · exact collectionBaseLines_no_lockState rev ind c lbl l h''
        · exact collectionLockPart_no_lockState cfg ind c l h''
      · rw [List.mem_singleton.mp h']; rfl
    · exact printItems_no_lockState cfg (ind ++ "    ") c.items l h

/-! ## Shape lemmas for the collection loop and the top level -/

theorem printCollections_nil (cfg : Config) (rev : List (String × String))
    (ind : String) : printCollections cfg rev ind [] = ⟨[], [], none⟩ := rfl

theorem printCollections_cons_of_fatal_none (cfg : Config)
    (rev : List (String × String)) (ind : String) (c : CollectionData)
    (rest : List CollectionData)
    (h : (printCollection cfg rev ind c).fatal = none) :
    printCollections cfg rev ind (c :: rest) =
      ⟨(printCollection cfg rev ind c).lines ++ [.blank]
         ++ (printCollections cfg rev ind rest).lines,
       (printCollection cfg rev ind c).trace
         ++ (printCollections cfg rev ind rest).trace,
       (printCollections cfg rev ind rest).fatal⟩ := by
  simp [printCollections, h]

theorem printCollections_cons_of_fatal_some (cfg : Config)
    (rev : List (String × String)) (ind : String) (c : CollectionData)
    (rest : List CollectionData) (f : Fatal)
    (h : (printCollection cfg rev ind c).fatal = some f) :
    printCollections cfg rev ind (c :: rest) =
      ⟨(printCollection cfg rev ind c).lines,
       (printCollection cfg rev ind c).trace, some f⟩ := by
  simp [printCollections, h]

theorem printCollections_no_lockState (cfg : Config)
    (rev : List (String × String)) (ind : String) :
    ∀ cols : List CollectionData,
      ∀ l ∈ (printCollections cfg rev ind cols).lines, l.isLockState = false := by
  intro cols
  induction cols with
  | nil =>
    intro l hl
    exact absurd hl (List.not_mem_nil l)
  | cons c rest ih =>
    intro l hl
    rcases hf : (printCollection cfg rev ind c).fatal with _ | f
    · rw [printCollections_cons_of_fatal_none cfg rev ind c rest hf] at hl
      rcases List.mem_append.mp hl with hm | hm
      · rcases List.mem_append.mp hm with hm' | hm'
        · exact printCollection_no_lockState cfg rev ind c l hm'
        · rw [List.mem_singleton.mp hm']; rfl
      · exact ih l hm
    · rw [printCollections_cons_of_fatal_some cfg rev ind c rest f hf] at hl
      exact printCollection_no_lockState cfg rev ind c l hl

theorem printCollections_append_fatal (cfg : Config)
    (rev : List (String × String)) (ind : String) (c : CollectionData)
    (rest : List CollectionData) (f : Fatal) :
    ∀ pre : List CollectionData,
      (printCollections cfg rev ind pre).fatal = none →
      (printCollection cfg rev ind c).fatal = some f →
      printCollections cfg rev ind (pre ++ c :: rest) =
        ⟨(printCollections cfg rev ind pre).lines
           ++ (printCollection cfg rev ind c).lines,
         (printCollections cfg rev ind pre).trace
           ++ (printCollection cfg rev ind c).trace, some f⟩ := by
  intro pre
  induction pre with
  | nil =>
    intro _ hc
    rw [List.nil_append, printCollections_cons_of_fatal_some cfg rev ind c rest f hc]
    simp [printCollections_nil]
  | cons p pre' ih =>
    intro hpre hc
    rcases hf : (printCollection cfg rev ind p).fatal with _ | f'
    · rw [printCollections_cons_of_fatal_none cfg rev ind p pre' hf] at hpre
      have hrec := ih hpre hc
      rw [List.cons_append,
          printCollections_cons_of_fatal_none cfg rev ind p (pre' ++ c :: rest) hf,
          hrec,
          printCollections_cons_of_fatal_none cfg rev ind p pre' hf]
      simp [List.append_assoc]
    · rw [printCollections_cons_of_fatal_some cfg rev ind p pre' f' hf] at hpre
      cases hpre

theorem appPrint_service_error (cfg : Config) (w : WorldData) (e : GErrorData)
    (h : w.serviceError = some e) :
    appPrint cfg w = ⟨[], [], some (.thrownError (to_error e))⟩ := by
  simp [appPrint, h]

theorem appPrint_ok (cfg : Config) (w : WorldData) (h : w.serviceError = none) :
    appPrint cfg w =
      ⟨serviceLines w
         ++ (printCollections cfg (buildAliases w.service.aliasBinding known_aliases).2
               "    " w.service.collections).lines,
       known_aliases.map Op.readAlias ++ [Op.listCollections]
         ++ (printCollections cfg (buildAliases w.service.aliasBinding known_aliases).2
               "    " w.service.collections).trace,
       (printCollections cfg (buildAliases w.service.aliasBinding known_aliases).2
           "    " w.service.collections).fatal⟩ := by
  simp [appPrint, h]

theorem runApp_fatal_none (cfg : Config) (w : WorldData)
    (h : (appPrint cfg w).fatal = none) :
    runApp cfg w = ⟨(appPrint cfg w).lines, [], (appPrint cfg w).trace⟩ := by
  simp [runApp, h]

theorem runApp_fatal_some (cfg : Config) (w : WorldData) (f : Fatal)
    (h : (appPrint cfg w).fatal = some f) :
    runApp cfg w =
      ⟨(appPrint cfg w).lines, ["Error: " ++ fatalWhat f],
       (appPrint cfg w).trace⟩ := by
  simp [runApp, h]

/-! ## Alias resolution lemmas -/

theorem mem_buildAliases_fwd (env : String → Option String) :
    ∀ (names : List String) (a p : String),
      ((a, p) ∈ (buildAliases env names).1 ↔ a ∈ names ∧ env a = some p) := by
  intro names
  induction names with
  | nil =>
    intro a p
    simp [buildAliases]
  | cons n rest ih =>
    intro a p
    rcases he : env n with _ | q
    · simp only [buildAliases, he]
      rw [ih a p]
      constructor
      · rintro ⟨ha, hp⟩
        exact ⟨List.mem_cons_of_mem _ ha, hp⟩
      · rintro ⟨ha, hp⟩
        rcases List.mem_cons.mp ha with h | h
        · subst h
          rw [he] at hp
          cases hp
        · exact ⟨h, hp⟩
    · simp only [buildAliases, he]
      constructor
      · intro hmem
        rcases List.mem_cons.mp hmem with h | h
        · obtain ⟨h1, h2⟩ := Prod.mk.injEq .. ▸ h
          subst h1
          subst h2
          exact ⟨List.mem_cons_self _ _, he⟩
        · obtain ⟨ha, hp⟩ := (ih a p).mp h
          exact ⟨List.mem_cons_of_mem _ ha, hp⟩
      · rintro ⟨ha, hp⟩
        rcases List.mem_cons.mp ha with h | h
        · subst h
          rw [he] at hp
          cases hp
          exact List.mem_cons_self _ _
        · exact List.mem_cons_of_mem _ ((ih a p).mpr ⟨h, hp⟩)

theorem mem_buildAliases_rev (env : String → Option String) :
    ∀ (names : List String) (a p : String),
      ((p, a) ∈ (buildAliases env names).2 ↔ a ∈ names ∧ env a = some p) := by
  intro names
  induction names with
  | nil =>
    intro a p
    simp [buildAliases]
  | cons n rest ih =>
    intro a p
    rcases he : env n with _ | q
    · simp only [buildAliases, he]
      rw [ih a p]
      constructor
      · rintro ⟨ha, hp⟩
        exact ⟨List.mem_cons_of_mem _ ha, hp⟩
      · rintro ⟨ha, hp⟩
        rcases List.mem_cons.mp ha with h | h
        · subst h
          rw [he] at hp
          cases hp
        · exact ⟨h, hp⟩
    · simp only [buildAliases, he]
      constructor
      · intro hmem
        rcases List.mem_cons.mp hmem with h | h
        · obtain ⟨h1, h2⟩ := Prod.mk.injEq .. ▸ h
          subst h2
          rw [← h1] at he
          exact ⟨List.mem_cons_self _ _, he⟩
        · obtain ⟨ha, hp⟩ := (ih a p).mp h
          exact ⟨List.mem_cons_of_mem _ ha, hp⟩
      · rintro ⟨ha, hp⟩
        rcases List.mem_cons.mp ha with h | h
        · subst h
          rw [he] at hp
          cases hp
          exact List.mem_cons_self _ _
        · exact List.mem_cons_of_mem _ ((ih a p).mpr ⟨h, hp⟩)

/-- `printItem` reads the attribute table only through `to_map`: two
attribute lists with the same `to_map` image give identical output. -/
theorem printItem_attributes_congr (cfg : Config) (ind : String)
    (it : ItemData) (l1 l2 : List (String × String))
    (hm : to_map l1 = to_map l2) :
    printItem cfg ind { it with attributes := l1 } =
      printItem cfg ind { it with attributes := l2 } := by
  cases it with
  | mk lab path cr md attrs lk ue le se =>
    rcases lab with _ | lbl
    · rfl
    · simp only [printItem, to_string_nullable, itemBaseLines,
        printItemSecretPart, secretValueLine]
      rw [hm]

/-! ## Claim theorems -/

/-- C6: the error classifier `to_error` maps every error outside the
secret-service error domain to the generic "couldn't get secret service"
message with the underlying description appended, and maps the in-domain
codes to their distinct messages: protocol errors to "received invalid
data", locked errors to "item or collection is locked", not-found errors
to a not-found message, already-exists errors to a passthrough message. -/
theorem to_error_classification (e : GErrorData) :
    (e.domain ≠ SECRET_ERROR →
      to_error e = "Couldn" ++ apos ++ "t get secret service." ++ " " ++ e.message) ∧
    (e.domain = SECRET_ERROR → e.code = SECRET_ERROR_PROTOCOL →
      to_error e = "Received invalid data from secret service." ++ " " ++ e.message) ∧
    (e.domain = SECRET_ERROR → e.code = SECRET_ERROR_IS_LOCKED →
      to_error e = "Secret item or collection is locked." ++ " " ++ e.message) ∧
    (e.domain = SECRET_ERROR → e.code = SECRET_ERROR_NO_SUCH_OBJECT →
      to_error e = "Secret item or collection not found." ++ " " ++ e.message) ∧
    (e.domain = SECRET_ERROR → e.code = SECRET_ERROR_ALREADY_EXISTS →
      to_error e = "Secret item or collection already exists." ++ " " ++ e.message) := by
  refine ⟨?_, ?_, ?_, ?_, ?_⟩
  · intro h1
    simp [to_error, h1]
  all_goals
    intro h1 h2
    simp [to_error, h1, h2, SECRET_ERROR_PROTOCOL, SECRET_ERROR_IS_LOCKED,
      SECRET_ERROR_NO_SUCH_OBJECT, SECRET_ERROR_ALREADY_EXISTS]

/-- C6 witness: the classifier evaluated at one concrete error of each
class. -/
theorem to_error_classification_witness :
    errForeign.domain ≠ SECRET_ERROR ∧
    to_error errForeign =
      "Couldn" ++ apos ++ "t get secret service." ++ " " ++ errForeign.message ∧
    to_error errProto =
      "Received invalid data from secret service." ++ " " ++ errProto.message ∧
    to_error errIsLocked =
      "Secret item or collection is locked." ++ " " ++ errIsLocked.message ∧
    to_error errGone =
      "Secret item or collection not found." ++ " " ++ errGone.message ∧
    to_error errDup =
      "Secret item or collection already exists." ++ " " ++ errDup.message :=
  ⟨by decide,
   (to_error_classification errForeign).1 (by decide),
   (to_error_classification errProto).2.1 rfl rfl,
   (to_error_classification errIsLocked).2.2.1 rfl rfl,
   (to_error_classification errGone).2.2.2.1 rfl rfl,
   (to_error_classification errDup).2.2.2.2 rfl rfl⟩

/-- C2 (code bug): the byte dump `to_string(const gchar*, gsize)` does not
produce hexadecimal output.  Streaming an `unsigned char` into the stream
performs character insertion, ignoring `std::setbase(16)`, so the bytes
`0xDE 0xAD` render as the two raw characters each left-padded with the
fill character `0` — not as `dead` — although the emitted line still
carries the "(hex)" label; `hex_dump` shows what the intended dump would
have produced. -/
theorem to_string_hexdump_bug :
    to_string_buf [222, 173] =
      "0" ++ String.singleton (Char.ofNat 222)
        ++ "0" ++ String.singleton (Char.ofNat 173) ∧
    to_string_buf [222, 173] ≠ "dead" ∧
    hex_dump [222, 173] = "dead" ∧
    (OutLine.valueHexLine "" (to_string_buf [222, 173]) ∈
      (printItem cfgBoth "" itemHexSecret).lines) ∧
    render (OutLine.valueHexLine "" (to_string_buf [222, 173])) =
      "    Value: \x7b " ++ to_string_buf [222, 173] ++ " \x7d (hex)" := by
  refine ⟨by decide, by decide, by decide, by decide, by decide⟩

/-- C9: attribute rendering is deterministic and order-independent: for
two iteration orders of the same attribute map (permutations of the same
key-distinct entry list), the rendered item output is identical, and the
key/value pairs are stored sorted strictly by key. -/
theorem attribute_rendering_deterministic (cfg : Config) (ind : String)
    (it : ItemData) (l1 l2 : List (String × String)) (hp : l1.Perm l2)
    (hnd : (l1.map Prod.fst).Nodup) :
    printItem cfg ind { it with attributes := l1 } =
      printItem cfg ind { it with attributes := l2 } ∧
    KeySorted (to_map l1) :=
  ⟨printItem_attributes_congr cfg ind it l1 l2 (to_map_perm_invariant hp hnd),
   to_map_keySorted l1⟩

/-- C9 witness: two iteration orders of the map `{a↦1, b↦2}`. -/
theorem attribute_rendering_deterministic_witness :
    ([(("b" : String), ("2" : String)), ("a", "1")]).Perm [("a", "1"), ("b", "2")] ∧
    (([(("b" : String), ("2" : String)), ("a", "1")]).map Prod.fst).Nodup ∧
    (printItem cfgBoth "" { itemPlain with attributes := [("b", "2"), ("a", "1")] } =
       printItem cfgBoth "" { itemPlain with attributes := [("a", "1"), ("b", "2")] } ∧
     KeySorted (to_map [("b", "2"), ("a", "1")])) :=
  ⟨List.Perm.swap ("a", "1") ("b", "2") [], by decide,
   attribute_rendering_deterministic cfgBoth "" itemPlain
     [("b", "2"), ("a", "1")] [("a", "1"), ("b", "2")]
     (List.Perm.swap ("a", "1") ("b", "2") []) (by decide)⟩

/-- C3: an unlock request is issued for an object iff `--unlock` is set
and the object's freshly read lock state is true; an object observed
unlocked never triggers an unlock request.  (The collection hypothesis
that item paths differ from the collection path reflects D-Bus object-path
uniqueness.) -/
theorem unlock_request_iff (cfg : Config) (rev : List (String × String))
    (ind : String) (it : ItemData) (c : CollectionData) (lbl lblc : String)
    (h : it.label = some lbl) (hc : c.label = some lblc)
    (hdistinct : ∀ x ∈ c.items, x.path ≠ c.path) :
    (Op.unlockRequest it.path ∈ (printItem cfg ind it).trace ↔
      it.locked = true ∧ cfg.do_unlock = true) ∧
    (Op.unlockRequest c.path ∈ (printCollection cfg rev ind c).trace ↔
      c.locked = true ∧ cfg.do_unlock = true) := by
  constructor
  · rw [unlockRequest_mem_printItem cfg ind it lbl it.path h]
    simp
  · rw [printCollection_some cfg rev ind c lblc hc]
    constructor
    · intro hmem
      rcases List.mem_append.mp hmem with hm | hm
      · rcases List.mem_append.mp hm with hm' | hm'
        · exact ((unlockRequest_mem_collectionLockPart cfg ind c c.path).mp hm').2
        · cases List.mem_singleton.mp hm'
      · obtain ⟨x, hx, hxo⟩ :=
          printItems_trace_mem cfg (ind ++ "    ") c.items _ hm
        rcases printItem_trace_paths cfg (ind ++ "    ") x _ hxo with h1 | h1 | h1
        · cases h1
        · injection h1 with hp
          exact absurd hp.symm (hdistinct x hx)
        · cases h1
    · rintro ⟨hl, hd⟩
      exact List.mem_append_left _ (List.mem_append_left _
        ((unlockRequest_mem_collectionLockPart cfg ind c c.path).mpr
          ⟨rfl, hl, hd⟩))

/-- C3 witness: the iff at a concrete locked item and collection under
`--unlock`. -/
theorem unlock_request_iff_witness :
    itemLockedOk.label = some "D" ∧ colLockedOk.label = some "Login2" ∧
    (∀ x ∈ colLockedOk.items, x.path ≠ colLockedOk.path) ∧
    ((Op.unlockRequest itemLockedOk.path ∈
        (printItem cfgBoth "" itemLockedOk).trace ↔
      itemLockedOk.locked = true ∧ cfgBoth.do_unlock = true) ∧
     (Op.unlockRequest colLockedOk.path ∈
        (printCollection cfgBoth [] "" colLockedOk).trace ↔
      colLockedOk.locked = true ∧ cfgBoth.do_unlock = true)) :=
  ⟨rfl, rfl, by decide,
   unlock_request_iff cfgBoth [] "" itemLockedOk colLockedOk "D" "Login2"
     rfl rfl (by decide)⟩

/-! ## No secret retrieval when secrets are not requested (C8 chain) -/

theorem printItem_no_loadSecret (cfg : Config) (ind : String) (it : ItemData)
    (p : String) (h : cfg.show_secrets = false) :
    Op.loadSecret p ∉ (printItem cfg ind it).trace := by
  intro hmem
  rcases hlab : it.label with _ | lbl
  · rw [printItem_label_none cfg ind it hlab] at hmem
    exact absurd hmem (List.not_mem_nil _)
  · by_cases hcond : (it.locked && cfg.do_unlock) = true
    · rw [Bool.and_eq_true] at hcond
      obtain ⟨hl, hd⟩ := hcond
      rcases hue : it.unlockError with _ | e
      · rw [printItem_unlock_ok cfg ind it lbl hlab hl hd hue,
            printItemSecretPart_off cfg ind it h] at hmem
        rcases List.mem_append.mp hmem with hm | hm
        · rcases List.mem_cons.mp hm with h' | h'
          · cases h'
          · cases List.mem_singleton.mp h'
        · exact absurd hm (List.not_mem_nil _)
      · rw [printItem_unlock_fail cfg ind it lbl e hlab hl hd hue] at hmem
        rcases List.mem_cons.mp hmem with h' | h'
        · cases h'
        · cases List.mem_singleton.mp h'
    · have hcf : (it.locked && cfg.do_unlock) = false := by
        cases hb : it.locked && cfg.do_unlock
        · rfl
        · exact absurd hb hcond
      rw [printItem_no_unlock cfg ind it lbl hlab hcf,
          printItemSecretPart_off cfg ind it h] at hmem
      rcases List.mem_append.mp hmem with hm | hm
      · cases List.mem_singleton.mp hm
      · exact absurd hm (List.not_mem_nil _)

theorem printCollection_no_loadSecret (cfg : Config)
    (rev : List (String × String)) (ind : String) (c : CollectionData)
    (p : String) (h : cfg.show_secrets = false) :
    Op.loadSecret p ∉ (printCollection cfg rev ind c).trace := by
  intro hmem
  rcases hlab : c.label with _ | lbl
  · rw [printCollection_label_none cfg rev ind c hlab] at hmem
    exact absurd hmem (List.not_mem_nil _)
  · rw [printCollection_some cfg rev ind c lbl hlab] at hmem
    rcases List.mem_append.mp hmem with hm | hm
    · rcases List.mem_append.mp hm with hm' | hm'
      · rcases collectionLockPart_ops cfg ind c _ hm' with h1 | h1
        · cases h1
        · cases h1
      · cases List.mem_singleton.mp hm'
    · obtain ⟨x, hx, hxo⟩ := printItems_trace_mem cfg (ind ++ "    ") c.items _ hm
      exact printItem_no_loadSecret cfg (ind ++ "    ") x p h hxo

theorem printCollections_trace_mem (cfg : Config)
    (rev : List (String × String)) (ind : String) :
    ∀ (cols : List CollectionData) (op : Op),
      op ∈ (printCollections cfg rev ind cols).trace →
        ∃ c ∈ cols, op ∈ (printCollection cfg rev ind c).trace := by
  intro cols
  induction cols with
  | nil =>
    intro op hop
    exact absurd hop (List.not_mem_nil op)
  | cons c rest ih =>
    intro op hop
    rcases hf : (printCollection cfg rev ind c).fatal with _ | f
    · rw [printCollections_cons_of_fatal_none cfg rev ind c rest hf] at hop
      rcases List.mem_append.mp hop with hm | hm
      · exact ⟨c, List.mem_cons_self _ _, hm⟩
      · obtain ⟨x, hx, hxo⟩ := ih op hm
        exact ⟨x, List.mem_cons_of_mem _ hx, hxo⟩
    · rw [printCollections_cons_of_fatal_some cfg rev ind c rest f hf] at hop
      exact ⟨c, List.mem_cons_self _ _, hop⟩

theorem runApp_trace (cfg : Config) (w : WorldData) :
    (runApp cfg w).trace = (appPrint cfg w).trace := by
  rcases hf : (appPrint cfg w).fatal with _ | f
  · rw [runApp_fatal_none cfg w hf]
  · rw [runApp_fatal_some cfg w f hf]

theorem runApp_stdout (cfg : Config) (w : WorldData) :
    (runApp cfg w).stdout = (appPrint cfg w).lines := by
  rcases hf : (appPrint cfg w).fatal with _ | f
  · rw [runApp_fatal_none cfg w hf]
  · rw [runApp_fatal_some cfg w f hf]

/-- C8: when secrets were not requested (`show_secrets` is false, i.e. the
requested detail stops short of secret values), no secret-retrieval
operation is ever issued during the whole run, even if `--unlock` is
set. -/
theorem no_secret_fetch_when_not_requested (cfg : Config) (w : WorldData)
    (h : cfg.show_secrets = false) (p : String) :
    Op.loadSecret p ∉ (runApp cfg w).trace := by
  intro hmem
  rw [runApp_trace cfg w] at hmem
  rcases hse : w.serviceError with _ | e
  · rw [appPrint_ok cfg w hse] at hmem
    rcases List.mem_append.mp hmem with hm | hm
    · rcases List.mem_append.mp hm with hm' | hm'
      · rcases List.mem_map.mp hm' with ⟨nm, _, hnm⟩
        cases hnm
      · cases List.mem_singleton.mp hm'
    · obtain ⟨c, hcmem, hco⟩ :=
        printCollections_trace_mem cfg
          (buildAliases w.service.aliasBinding known_aliases).2 "    "
          w.service.collections _ hm
      exact printCollection_no_loadSecret cfg
        (buildAliases w.service.aliasBinding known_aliases).2 "    " c p h hco
  · rw [appPrint_service_error cfg w e hse] at hmem
    exact absurd hmem (List.not_mem_nil _)

/-- C8 witness: a run with `--unlock` but without `--secrets` issues no
secret load. -/
theorem no_secret_fetch_witness :
    cfgUnlockOnly.show_secrets = false ∧
    Op.loadSecret "/item/ok" ∉ (runApp cfgUnlockOnly worldX).trace :=
  ⟨rfl, no_secret_fetch_when_not_requested cfgUnlockOnly worldX rfl "/item/ok"⟩

/-- C4: a failed item unlock suppresses that item's secret load but is not
fatal — the sibling items after it are still processed; a failed
collection unlock still lists the collection's items, and the following
collections are still processed. -/
theorem unlock_failure_isolation (cfg : Config) (rev : List (String × String))
    (ind : String) (it : ItemData) (rest : List ItemData) (c : CollectionData)
    (crest : List CollectionData) (lbl lblc : String) (e e2 : GErrorData)
    (h : it.label = some lbl) (hl : it.locked = true) (hd : cfg.do_unlock = true)
    (he : it.unlockError = some e)
    (hc : c.label = some lblc) (_hcl : c.locked = true)
    (_hce : c.unlockError = some e2)
    (hitems : ∀ x ∈ c.items, x.label ≠ none) :
    Op.loadSecret it.path ∉ (printItem cfg ind it).trace ∧
    (printItem cfg ind it).fatal = none ∧
    printItems cfg ind (it :: rest) =
      ⟨(printItem cfg ind it).lines ++ [.blank] ++ (printItems cfg ind rest).lines,
       (printItem cfg ind it).trace ++ (printItems cfg ind rest).trace,
       (printItems cfg ind rest).fatal⟩ ∧
    Op.listItems c.path ∈ (printCollection cfg rev ind c).trace ∧
    (∃ pre, (printCollection cfg rev ind c).lines =
        pre ++ [OutLine.blank] ++ (printItems cfg (ind ++ "    ") c.items).lines) ∧
    printCollections cfg rev ind (c :: crest) =
      ⟨(printCollection cfg rev ind c).lines ++ [.blank]
         ++ (printCollections cfg rev ind crest).lines,
       (printCollection cfg rev ind c).trace
         ++ (printCollections cfg rev ind crest).trace,
       (printCollections cfg rev ind crest).fatal⟩ := by
  have hfat : (printItem cfg ind it).fatal = none :=
    printItem_fatal_none cfg ind it lbl h
  have hcfat : (printCollection cfg rev ind c).fatal = none := by
    rw [printCollection_some cfg rev ind c lblc hc]
    exact printItems_fatal_none cfg (ind ++ "    ") c.items hitems
  refine ⟨?_, hfat, printItems_cons_of_fatal_none cfg ind it rest hfat, ?_, ?_,
    printCollections_cons_of_fatal_none cfg rev ind c crest hcfat⟩
  · intro hmem
    rw [printItem_unlock_fail cfg ind it lbl e h hl hd he] at hmem
    rcases List.mem_cons.mp hmem with h' | h'
    · cases h'
    · cases List.mem_singleton.mp h'
  · rw [printCollection_some cfg rev ind c lblc hc]
    exact List.mem_append_left _
      (List.mem_append_right _ (List.mem_singleton.mpr rfl))
  · rw [printCollection_some cfg rev ind c lblc hc]
    exact ⟨collectionBaseLines rev ind c lblc ++ (collectionLockPart cfg ind c).1,
      rfl⟩

/-- C4 witness: a concrete failed item unlock next to a healthy sibling,
inside a concretely failed collection unlock followed by a healthy
collection. -/
theorem unlock_failure_isolation_witness :
    itemUnlockFail.label = some "A" ∧ itemUnlockFail.locked = true ∧
    cfgBoth.do_unlock = true ∧ itemUnlockFail.unlockError = some errIsLocked ∧
    colUnlockFail.label = some "Login" ∧ colUnlockFail.locked = true ∧
    colUnlockFail.unlockError = some errIsLocked ∧
    (∀ x ∈ colUnlockFail.items, x.label ≠ none) ∧
    (Op.loadSecret itemUnlockFail.path ∉
       (printItem cfgBoth "" itemUnlockFail).trace ∧
     (printItem cfgBoth "" itemUnlockFail).fatal = none ∧
     printItems cfgBoth "" (itemUnlockFail :: [itemPlain]) =
       ⟨(printItem cfgBoth "" itemUnlockFail).lines ++ [.blank]
          ++ (printItems cfgBoth "" [itemPlain]).lines,
        (printItem cfgBoth "" itemUnlockFail).trace
          ++ (printItems cfgBoth "" [itemPlain]).trace,
        (printItems cfgBoth "" [itemPlain]).fatal⟩ ∧
     Op.listItems colUnlockFail.path ∈
       (printCollection cfgBoth [] "" colUnlockFail).trace ∧
     (∃ pre, (printCollection cfgBoth [] "" colUnlockFail).lines =
         pre ++ [OutLine.blank]
           ++ (printItems cfgBoth ("" ++ "    ") colUnlockFail.items).lines) ∧
     printCollections cfgBoth [] "" (colUnlockFail :: [colPlain]) =
       ⟨(printCollection cfgBoth [] "" colUnlockFail).lines ++ [.blank]
          ++ (printCollections cfgBoth [] "" [colPlain]).lines,
        (printCollection cfgBoth [] "" colUnlockFail).trace
          ++ (printCollections cfgBoth [] "" [colPlain]).trace,
        (printCollections cfgBoth [] "" [colPlain]).fatal⟩) :=
  ⟨rfl, rfl, rfl, rfl, rfl, rfl, rfl, by decide,
   unlock_failure_isolation cfgBoth [] "" itemUnlockFail [itemPlain]
     colUnlockFail [colPlain] "A" "Login" errIsLocked errIsLocked
     rfl rfl rfl rfl rfl rfl rfl (by decide)⟩

/-- C5: a failure to obtain the service handle is fatal — printed to
standard error prefixed `Error: ` with no report content produced — while
per-object errors (item unlock failure, item secret-load failure,
collection unlock failure) are printed inline in that object's block and
are not fatal. -/
theorem error_propagation_policy (cfg : Config) (rev : List (String × String))
    (ind : String) (w : WorldData) (e0 : GErrorData)
    (it1 it2 : ItemData) (c : CollectionData) (lbl1 lbl2 lblc : String)
    (e1 e2 e3 : GErrorData)
    (hw : w.serviceError = some e0)
    (h1 : it1.label = some lbl1) (h1l : it1.locked = true)
    (hd : cfg.do_unlock = true) (h1e : it1.unlockError = some e1)
    (h2 : it2.label = some lbl2) (h2l : it2.locked = false)
    (hs : cfg.show_secrets = true) (h2e : it2.loadSecretError = some e2)
    (hc : c.label = some lblc) (hcl : c.locked = true)
    (hce : c.unlockError = some e3) :
    runApp cfg w = ⟨[], ["Error: " ++ to_error e0], []⟩ ∧
    (OutLine.errorLine ind (to_error e1) ∈ (printItem cfg ind it1).lines ∧
     (printItem cfg ind it1).fatal = none) ∧
    (OutLine.errorLine ind (to_error e2) ∈ (printItem cfg ind it2).lines ∧
     (printItem cfg ind it2).fatal = none) ∧
    (OutLine.errorLine ind (to_error e3) ∈ (printCollection cfg rev ind c).lines ∧
     ((∀ x ∈ c.items, x.label ≠ none) →
       (printCollection cfg rev ind c).fatal = none)) := by
  refine ⟨?_, ⟨?_, printItem_fatal_none cfg ind it1 lbl1 h1⟩,
    ⟨?_, printItem_fatal_none cfg ind it2 lbl2 h2⟩, ⟨?_, ?_⟩⟩
  · simp [runApp, appPrint, hw, fatalWhat]
  · rw [printItem_unlock_fail cfg ind it1 lbl1 e1 h1 h1l hd h1e]
    exact List.mem_append_right _ (List.mem_singleton.mpr rfl)
  · have hcf : (it2.locked && cfg.do_unlock) = false := by simp [h2l]
    rw [printItem_no_unlock cfg ind it2 lbl2 h2 hcf,
        printItemSecretPart_load_fail cfg ind it2 e2 hs h2e]
    exact List.mem_append_right _ (List.mem_singleton.mpr rfl)
  · rw [printCollection_some cfg rev ind c lblc hc,
        collectionLockPart_unlock_fail cfg ind c e3 hcl hd hce]
    exact List.mem_append_left _ (List.mem_append_left _
      (List.mem_append_right _ (List.mem_singleton.mpr rfl)))
  · intro hitems
    rw [printCollection_some cfg rev ind c lblc hc]
    exact printItems_fatal_none cfg (ind ++ "    ") c.items hitems

/-- C5 witness: the propagation policy at concrete errors of each kind. -/
theorem error_propagation_policy_witness :
    worldErr.serviceError = some errForeign ∧
    itemUnlockFail.label = some "A" ∧ itemUnlockFail.locked = true ∧
    cfgBoth.do_unlock = true ∧ itemUnlockFail.unlockError = some errIsLocked ∧
    itemLoadFail.label = some "B" ∧ itemLoadFail.locked = false ∧
    cfgBoth.show_secrets = true ∧ itemLoadFail.loadSecretError = some errProto ∧
    colUnlockFail.label = some "Login" ∧ colUnlockFail.locked = true ∧
    colUnlockFail.unlockError = some errIsLocked ∧
    (runApp cfgBoth worldErr = ⟨[], ["Error: " ++ to_error errForeign], []⟩ ∧
     (OutLine.errorLine "" (to_error errIsLocked) ∈
        (printItem cfgBoth "" itemUnlockFail).lines ∧
      (printItem cfgBoth "" itemUnlockFail).fatal = none) ∧
     (OutLine.errorLine "" (to_error errProto) ∈
        (printItem cfgBoth "" itemLoadFail).lines ∧
      (printItem cfgBoth "" itemLoadFail).fatal = none) ∧
     (OutLine.errorLine "" (to_error errIsLocked) ∈
        (printCollection cfgBoth [] "" colUnlockFail).lines ∧
      ((∀ x ∈ colUnlockFail.items, x.label ≠ none) →
        (printCollection cfgBoth [] "" colUnlockFail).fatal = none))) :=
  ⟨rfl, rfl, rfl, rfl, rfl, rfl, rfl, rfl, rfl, rfl, rfl, rfl,
   error_propagation_policy cfgBoth [] "" worldErr errForeign
     itemUnlockFail itemLoadFail colUnlockFail "A" "B" "Login"
     errIsLocked errProto errIsLocked
     rfl rfl rfl rfl rfl rfl rfl rfl rfl rfl rfl rfl⟩

/-- C7: for each name in the fixed alias set the bound collection path is
probed; an absent binding is silently skipped (it never enters the
forward map); both maps characterize exactly the live bindings; every
alias bound to a collection's path produces an `Alias:` line in that
collection's block; and in the top-level trace all three alias reads
happen before the collection listing, i.e. both maps exist before any
rendering of collections begins. -/
theorem alias_resolution (cfg : Config) (env : String → Option String)
    (w : WorldData) (c : CollectionData) (rev : List (String × String))
    (ind : String) (a p lblc : String)
    (hw : w.serviceError = none) (hc : c.label = some lblc) :
    ((a, p) ∈ (buildAliases env known_aliases).1 ↔
      a ∈ known_aliases ∧ env a = some p) ∧
    ((p, a) ∈ (buildAliases env known_aliases).2 ↔
      a ∈ known_aliases ∧ env a = some p) ∧
    (env a = none → ∀ q, (a, q) ∉ (buildAliases env known_aliases).1) ∧
    ((p, a) ∈ rev → p = c.path →
      OutLine.aliasLine ind a ∈ (printCollection cfg rev ind c).lines) ∧
    (∃ t, (appPrint cfg w).trace =
       known_aliases.map Op.readAlias ++ Op.listCollections :: t) := by
  refine ⟨mem_buildAliases_fwd env known_aliases a p,
    mem_buildAliases_rev env known_aliases a p, ?_, ?_, ?_⟩
  · intro hnone q hmem
    have hq := (mem_buildAliases_fwd env known_aliases a q).mp hmem
    rw [hnone] at hq
    cases hq.2
  · intro hpa hpc
    rw [printCollection_some cfg rev ind c lblc hc]
    have hfil : (p, a) ∈ rev.filter (fun pa => pa.1 = c.path) :=
      List.mem_filter.mpr ⟨hpa, decide_eq_true hpc⟩
    have hmap : OutLine.aliasLine ind a ∈
        (rev.filter (fun pa => pa.1 = c.path)).map
          (fun pa => OutLine.aliasLine ind pa.2) :=
      List.mem_map.mpr ⟨(p, a), hfil, rfl⟩
    unfold collectionBaseLines
    exact List.mem_append_left _ (List.mem_append_left _
      (List.mem_append_left _ (List.mem_append_left _
        (List.mem_append_left _ (List.mem_append_right _ hmap)))))
  · rw [appPrint_ok cfg w hw]
    refine ⟨(printCollections cfg
      (buildAliases w.service.aliasBinding known_aliases).2 "    "
      w.service.collections).trace, ?_⟩
    rw [List.append_assoc]
    rfl

/-- C7 witness: under the binding `default ↦ /col/ok`, the maps and the
collection block of the bound collection. -/
theorem alias_resolution_witness :
    worldX.serviceError = none ∧ colPlain.label = some "Main" ∧
    (((("default" : String), ("/col/ok" : String)) ∈
        (buildAliases envX known_aliases).1 ↔
      "default" ∈ known_aliases ∧ envX "default" = some "/col/ok") ∧
     ((("/col/ok" : String), ("default" : String)) ∈
        (buildAliases envX known_aliases).2 ↔
      "default" ∈ known_aliases ∧ envX "default" = some "/col/ok") ∧
     (envX "default" = none → ∀ q, ("default", q) ∉ (buildAliases envX known_aliases).1) ∧
     (("/col/ok", "default") ∈ (buildAliases envX known_aliases).2 →
       "/col/ok" = colPlain.path →
       OutLine.aliasLine "    " "default" ∈
         (printCollection cfgBoth (buildAliases envX known_aliases).2 "    "
           colPlain).lines) ∧
     (∃ t, (appPrint cfgBoth worldX).trace =
        known_aliases.map Op.readAlias ++ Op.listCollections :: t)) :=
  ⟨rfl, rfl,
   alias_resolution cfgBoth envX worldX colPlain
     (buildAliases envX known_aliases).2 "    " "default" "/col/ok" "Main"
     rfl rfl⟩

/-- C10: rendering a collection or an item is total only when its label is
present.  A null label makes the label conversion yield an absent
optional, the unconditional `.value()` throws, and the exception escalates
to a fatal abort of the whole remaining report (`Error:` on standard
error, no further collections rendered) instead of a per-object error. -/
theorem absent_label_fatal_abort (cfg : Config) (w : WorldData)
    (pre rest : List CollectionData) (c : CollectionData) (it : ItemData)
    (ind : String)
    (hw : w.serviceError = none)
    (hcols : w.service.collections = pre ++ c :: rest)
    (hpre : (printCollections cfg
        (buildAliases w.service.aliasBinding known_aliases).2 "    " pre).fatal
      = none)
    (hc : c.label = none) (hit : it.label = none) :
    (printItem cfg ind it).fatal = some .badOptionalAccess ∧
    (runApp cfg w).stderr = ["Error: bad optional access"] ∧
    (runApp cfg w).stdout =
      serviceLines w
        ++ (printCollections cfg
              (buildAliases w.service.aliasBinding known_aliases).2 "    "
              pre).lines
        ++ [OutLine.fragment ("    " ++ "Collection: \"")] := by
  have hcf : (printCollection cfg
      (buildAliases w.service.aliasBinding known_aliases).2 "    " c).fatal
      = some .badOptionalAccess := by
    rw [printCollection_label_none cfg
      (buildAliases w.service.aliasBinding known_aliases).2 "    " c hc]
  have hloop := printCollections_append_fatal cfg
    (buildAliases w.service.aliasBinding known_aliases).2 "    " c rest
    .badOptionalAccess pre hpre hcf
  have happ : (appPrint cfg w).fatal = some .badOptionalAccess := by
    rw [appPrint_ok cfg w hw, hcols, hloop]
  refine ⟨?_, ?_, ?_⟩
  · rw [printItem_label_none cfg ind it hit]
  · rw [runApp_fatal_some cfg w _ happ]
    rfl
  · rw [runApp_fatal_some cfg w _ happ]
    show (appPrint cfg w).lines = _
    rw [appPrint_ok cfg w hw, hcols, hloop]
    show serviceLines w ++ (_ ++ _) = _
    rw [printCollection_label_none cfg
      (buildAliases w.service.aliasBinding known_aliases).2 "    " c hc]
    rw [← List.append_assoc]

/-- C10 witness: a world whose only collection lacks a label aborts the
whole report. -/
theorem absent_label_fatal_abort_witness :
    worldNoLabel.serviceError = none ∧
    worldNoLabel.service.collections = [] ++ colNoLabel :: [] ∧
    (printCollections cfgBoth
        (buildAliases worldNoLabel.service.aliasBinding known_aliases).2 "    "
        []).fatal = none ∧
    colNoLabel.label = none ∧ itemNoLabel.label = none ∧
    ((printItem cfgBoth "" itemNoLabel).fatal = some .badOptionalAccess ∧
     (runApp cfgBoth worldNoLabel).stderr = ["Error: bad optional access"] ∧
     (runApp cfgBoth worldNoLabel).stdout =
       serviceLines worldNoLabel
         ++ (printCollections cfgBoth
               (buildAliases worldNoLabel.service.aliasBinding known_aliases).2
               "    " []).lines
         ++ [OutLine.fragment ("    " ++ "Collection: \"")]) :=
  ⟨rfl, rfl, rfl, rfl, rfl,
   absent_label_fatal_abort cfgBoth worldNoLabel [] [] colNoLabel itemNoLabel
     "" rfl rfl rfl rfl rfl⟩

end LsSecrets
